import Mathlib

/-!
Verification development for the stokespy instrument-loading module
(`stokespy/instload.py`).  The Python source is shallowly embedded: pure
string manipulations become Lean functions over `String`/`List Char`,
numpy array operations become functions on (nested) lists, fallible
Python code (statements that can raise `IndexError` / `UnboundLocalError`)
returns `Except Unit`, and the early `return` path of `get_HMI_data`
is modelled by a dedicated result constructor.
-/

namespace StokesPy

/-! ## Python string primitives -/

/-- Python `str.split(delim)` for a one-character delimiter, written over the
character list.  As in Python, `"".split(".") = [""]` and
`"a..b".split(".") = ["a", "", "b"]`. -/
def pySplitAux (delim : Char) : List Char → List (List Char)
  | [] => [[]]
  | c :: cs =>
    match pySplitAux delim cs with
    | [] => [[]]
    | t :: ts => if c = delim then [] :: t :: ts else (c :: t) :: ts

/-- Python `s.split(delim)` returning `String` tokens. -/
def pySplit (delim : Char) (s : String) : List String :=
  (pySplitAux delim s.data).map (fun cs => String.mk cs)

/-- Python `str.lower()` (ASCII case folding, which is all the source uses). -/
def pyLower (s : String) : String :=
  String.mk (s.data.map Char.toLower)

/-- Python `"_".join(tokens)`. -/
def joinUnderscore : List String → String
  | [] => ""
  | [t] => t
  | t :: t2 :: ts => t ++ "_" ++ joinUnderscore (t2 :: ts)

/-! ## `parse_folder` (repo = JSOC, the default used by `get_HMI_data`)

Source, `instload.py` lines 28-77: the natural-sorted listing is scanned in
order; per file `sfile_ = file_.lower().split(".")` and the file is kept as
`dir_path + file_` when `sfile_[0] == inst.lower() and sfile_[1] ==
series.lower()`.  Python's `and` short-circuits, so `sfile_[1]` is evaluated
only when the first comparison succeeds; a filename with a single token whose
token 0 matches the instrument raises `IndexError`, modelled as
`Except.error ()`. -/

/-- One iteration of the `parse_folder` selection loop: returns whether the
file is kept, or an error when `sfile_[1]` indexes out of bounds. -/
def parseFolderStep (inst series file : String) : Except Unit Bool :=
  if (pySplit '.' (pyLower file)).headD "" = pyLower inst then
    match (pySplit '.' (pyLower file)).get? 1 with
    | none => .error ()
    | some t => .ok (t = pyLower series)
  else .ok false

/-- `parse_folder` over an already natural-sorted directory listing. -/
def parse_folder (dirPath inst series : String) :
    List String → Except Unit (List String)
  | [] => .ok []
  | f :: fs => do
    let keep ← parseFolderStep inst series f
    let rest ← parse_folder dirPath inst series fs
    pure (if keep then (dirPath ++ f) :: rest else rest)

/-- The spec's keep-predicate for the Filter: token 0 of the lower-cased,
dot-split filename equals the lower-cased instrument and token 1 equals the
lower-cased series. -/
def keepSpec (inst series : String) (f : String) : Bool :=
  ((pySplit '.' (pyLower f)).get? 0 = some (pyLower inst)) &&
  ((pySplit '.' (pyLower f)).get? 1 = some (pyLower series))

lemma pySplitAux_ne_nil (delim : Char) (cs : List Char) :
    pySplitAux delim cs ≠ [] := by
  cases cs with
  | nil => simp [pySplitAux]
  | cons c cs =>
    simp only [pySplitAux]
    cases h : pySplitAux delim cs with
    | nil => simp
    | cons t ts => by_cases hc : c = delim <;> simp [hc]

lemma pySplit_ne_nil (delim : Char) (s : String) : pySplit delim s ≠ [] := by
  unfold pySplit
  intro h
  exact pySplitAux_ne_nil delim s.data (by simpa using h)

lemma parseFolderStep_ok (inst series f : String)
    (h : (pySplit '.' (pyLower f)).headD "" = pyLower inst →
      2 ≤ (pySplit '.' (pyLower f)).length) :
    parseFolderStep inst series f = .ok (keepSpec inst series f) := by
  unfold parseFolderStep keepSpec
  rcases hts : pySplit '.' (pyLower f) with _ | ⟨a, _ | ⟨b, rest⟩⟩
  · exact absurd hts (pySplit_ne_nil _ _)
  · rw [hts] at h
    by_cases ha : a = pyLower inst
    · exfalso
      have := h (by simpa using ha)
      simp at this
    · simp [ha]
  · by_cases ha : a = pyLower inst
    · simp [ha]
    · simp [ha]

lemma parse_folder_eq_filter (dp inst series : String) (listing : List String)
    (hs : ∀ f ∈ listing, (pySplit '.' (pyLower f)).headD "" = pyLower inst →
      2 ≤ (pySplit '.' (pyLower f)).length) :
    parse_folder dp inst series listing =
      .ok ((listing.filter (keepSpec inst series)).map (fun f => dp ++ f)) := by
  induction listing with
  | nil => rfl
  | cons f fs ih =>
    have hstep := parseFolderStep_ok inst series f (hs f (by simp))
    have hrest := ih (fun g hg => hs g (by simp [hg]))
    simp only [parse_folder, hstep, hrest, List.filter_cons, bind, Except.bind,
      pure, Except.pure]
    by_cases hk : keepSpec inst series f
    · simp [hk]
    · simp [hk]

/-- Claim C8 (amended): `parse_folder` (JSOC convention) keeps a listing entry
iff token 0 of its lower-cased dot-split equals the lower-cased instrument and
token 1 equals the lower-cased series; it emits `dir_path + file` in the
input's (natural-sorted) relative order, and zero matches yields the empty
list, `provided` every file whose token 0 matches the instrument splits into
at least two tokens.  (Without that proviso the loop raises `IndexError`; see
the counterexample.) -/
theorem c8_parse_folder_filter (dp inst series : String) (listing : List String)
    (hs : ∀ f ∈ listing, (pySplit '.' (pyLower f)).headD "" = pyLower inst →
      2 ≤ (pySplit '.' (pyLower f)).length) :
    parse_folder dp inst series listing =
      .ok ((listing.filter (keepSpec inst series)).map (fun f => dp ++ f)) :=
  parse_folder_eq_filter dp inst series listing hs

/-- Claim C8 witness: a concrete listing (out-of-convention files mixed in)
where `parse_folder` returns exactly the matching files, prefixed by the
directory and in input order. -/
theorem c8_parse_folder_filter_witness :
    parse_folder "d/" "hmi" "S_720s"
      ["aia.lev1.x.fits", "hmi.s_720s.a.fits", "hmi.me.b.fits", "readme"] =
      .ok ((["aia.lev1.x.fits", "hmi.s_720s.a.fits", "hmi.me.b.fits",
        "readme"].filter (keepSpec "hmi" "S_720s")).map (fun f => "d/" ++ f)) :=
  c8_parse_folder_filter "d/" "hmi" "S_720s" _ (by decide)

/-- Claim C8 counterexample: the claim as stated fails — a directory entry
named exactly `"hmi"` (token 0 matches the instrument, no token 1 exists)
makes `parse_folder` raise `IndexError` (modelled `Except.error ()`) instead
of skipping the file and returning the empty match list. -/
theorem c8_parse_folder_filter_cex :
    parse_folder "" "hmi" "s_720s" ["hmi"] = .error () ∧
      parse_folder "" "hmi" "s_720s" ["hmi"] ≠
        .ok (([] : List String)) := by
  refine ⟨rfl, ?_⟩
  intro h
  rw [show parse_folder "" "hmi" "s_720s" ["hmi"] = Except.error () from rfl] at h
  exact Except.noConfusion h

/-! ## Timestamp resolution (`get_HMI_data`, download=False path)

Source, `instload.py` lines 137-146 (Stokes series) and 166-180 (inversion
series): when more than one candidate file is present, the timestamp token is
`i.split('.')[2]`, reduced to its first two underscore-separated fields by
`'_'.join(i.split('_')[0:2])` and parsed by the external
`sunpy.time.parse_time` (modelled as an abstract `gps : String → ℤ`); the
files kept are all those whose absolute gps difference from the target equals
the minimum difference (`np.where(tstamps_diff == tstamps_diff.min())`).
When at most one candidate is present, the guarded block is skipped: for the
Stokes series line 143 then reads the unbound `tstamps_diff`
(`UnboundLocalError`); for the inversion series the function prints a message
and returns `None`. -/

/-- The timestamp key of a filename: `'_'.join(f.split('.')[2].split('_')[0:2])`.
`Except.error ()` models the `IndexError` when the filename has fewer than
three dot-tokens. -/
def tstampKey (f : String) : Except Unit String :=
  match (pySplit '.' f).get? 2 with
  | none => .error ()
  | some tok => .ok (joinUnderscore ((pySplit '_' tok).take 2))

/-- Total variant of `tstampKey` (defined on well-formed filenames, where it
agrees with `tstampKey`). -/
def tstampKeyD (f : String) : String :=
  joinUnderscore ((pySplit '_' (((pySplit '.' f).get? 2).getD "")).take 2)

/-- The timestamp keys of a candidate list, in order; errors at the first
filename with fewer than three dot-tokens (the list comprehension at line
138 raises there). -/
def tstampKeys : List String → Except Unit (List String)
  | [] => .ok []
  | f :: fs => do
    let k ← tstampKey f
    let ks ← tstampKeys fs
    pure (k :: ks)

/-- `np.min` of a list of naturals (`0` on the empty list, which numpy
rejects; all uses are guarded by a non-emptiness check). -/
def natListMin : List ℕ → ℕ
  | [] => 0
  | d :: ds => ds.foldl min d

/-- The absolute gps difference of one candidate from the target
(`np.abs(i.gps - user_date.gps)` with the timestamp parse abstracted). -/
def fileDiff (gps : String → ℤ) (target : ℤ) (f : String) : ℕ :=
  (gps (tstampKeyD f) - target).natAbs

/-- The minimum absolute difference over the whole candidate list. -/
def minDiff (gps : String → ℤ) (target : ℤ) (files : List String) : ℕ :=
  natListMin (files.map (fileDiff gps target))

/-- Lines 138-146: compute all timestamp keys, their absolute differences
from the target, and keep the candidates at the indices where the difference
equals the minimum (`np.where` plus fancy indexing preserves input order). -/
def closestFiles (gps : String → ℤ) (target : ℤ) (files : List String) :
    Except Unit (List String) := do
  let keys ← tstampKeys files
  let diffs := keys.map (fun k => (gps k - target).natAbs)
  pure (((files.zip diffs).filter (fun p => p.2 = natListMin diffs)).map Prod.fst)

/-- The complete timestamp-resolution step for one series in the
download=False path: the closest-file computation runs only under the
`len(...) > 1` guard; otherwise line 143 reads the unbound local
`tstamps_diff`, modelled as `Except.error ()`. -/
def resolve_tstamps (gps : String → ℤ) (target : ℤ) (files : List String) :
    Except Unit (List String) :=
  if files.length > 1 then closestFiles gps target files else .error ()

/-- Outcome of the two file-selection stages of `get_HMI_data`
(download=False): either both selections succeed, or the function returns
`None` early (`print(...); return`, line 174), or an uncaught Python
exception escapes (`UnboundLocalError` at line 143, `IndexError` at lines
138/169/184). -/
inductive HMISelect where
  | ok (stokesSel magvecSel : List String) : HMISelect
  | noneReturn : HMISelect
  | pyError : HMISelect
deriving DecidableEq

/-- The file-selection portion of `get_HMI_data` (download=False), lines
129-187: resolve the Stokes series (crashing when at most one candidate
exists), then the inversion series (returning `None` when at most one
candidate exists); finally the diagnostic loop at lines 183-185 iterates
`range(len(all_fnames_stokes))` while indexing `all_fnames_magvec`, raising
`IndexError` whenever more Stokes files than inversion files were selected. -/
def get_HMI_data_select (gps : String → ℤ) (target : ℤ)
    (stokesFiles magvecFiles : List String) : HMISelect :=
  if stokesFiles.length > 1 then
    match closestFiles gps target stokesFiles with
    | .error _ => .pyError
    | .ok stokesSel =>
      if magvecFiles.length > 1 then
        match closestFiles gps target magvecFiles with
        | .error _ => .pyError
        | .ok magvecSel =>
          if stokesSel.length ≤ magvecSel.length then .ok stokesSel magvecSel
          else .pyError
      else .noneReturn
  else .pyError

lemma foldl_min_le_init : ∀ (ds : List ℕ) (a : ℕ), ds.foldl min a ≤ a
  | [], _ => le_refl _
  | d :: ds, a => le_trans (foldl_min_le_init ds (min a d)) (min_le_left a d)

lemma foldl_min_le_mem : ∀ (ds : List ℕ) (a x : ℕ), x ∈ ds → ds.foldl min a ≤ x
  | d :: ds, a, x, h => by
    rcases List.mem_cons.mp h with rfl | h2
    · exact le_trans (foldl_min_le_init ds (min a x)) (min_le_right a x)
    · exact foldl_min_le_mem ds (min a d) x h2

lemma foldl_min_mem : ∀ (ds : List ℕ) (a : ℕ),
    ds.foldl min a = a ∨ ds.foldl min a ∈ ds
  | [], _ => Or.inl rfl
  | d :: ds, a => by
    rcases foldl_min_mem ds (min a d) with h | h
    · rcases le_total a d with hle | hle
      · left
        simp only [List.foldl, h]
        exact min_eq_left hle
      · right
        apply List.mem_cons.mpr
        left
        simp only [List.foldl] at h ⊢
        rw [h]
        exact min_eq_right hle
    · right
      exact List.mem_cons_of_mem _ h

lemma natListMin_le (l : List ℕ) (x : ℕ) (hx : x ∈ l) : natListMin l ≤ x := by
  cases l with
  | nil => cases hx
  | cons d ds =>
    rcases List.mem_cons.mp hx with rfl | h
    · exact foldl_min_le_init ds x
    · exact foldl_min_le_mem ds d x h

lemma natListMin_mem (l : List ℕ) (h : l ≠ []) : natListMin l ∈ l := by
  cases l with
  | nil => exact absurd rfl h
  | cons d ds =>
    rcases foldl_min_mem ds d with h2 | h2
    · exact List.mem_cons.mpr (Or.inl h2)
    · exact List.mem_cons_of_mem _ h2

lemma tstampKeys_ok (files : List String)
    (htok : ∀ f ∈ files, 3 ≤ (pySplit '.' f).length) :
    tstampKeys files = .ok (files.map tstampKeyD) := by
  induction files with
  | nil => rfl
  | cons f fs ih =>
    have h3 := htok f (by simp)
    have hk : tstampKey f = .ok (tstampKeyD f) := by
      unfold tstampKey tstampKeyD
      rcases hg : (pySplit '.' f).get? 2 with _ | tok
      · rw [List.get?_eq_none] at hg
        omega
      · simp [hg]
    simp only [tstampKeys, hk, ih (fun g hg => htok g (by simp [hg])),
      bind, Except.bind, pure, Except.pure, List.map_cons]

lemma zip_filter_map_fst (l : List String) (g : String → ℕ) (m : ℕ) :
    ((l.zip (l.map g)).filter (fun p => p.2 = m)).map Prod.fst =
      l.filter (fun f => g f = m) := by
  induction l with
  | nil => rfl
  | cons a l ih =>
    simp only [List.map_cons, List.zip_cons_cons, List.filter_cons]
    by_cases h : g a = m
    · simp [h, ih]
    · simp [h, ih]

lemma closestFiles_ok (gps : String → ℤ) (target : ℤ) (files : List String)
    (htok : ∀ f ∈ files, 3 ≤ (pySplit '.' f).length) :
    closestFiles gps target files =
      .ok (files.filter (fun f => fileDiff gps target f = minDiff gps target files)) := by
  unfold closestFiles
  rw [tstampKeys_ok files htok]
  simp only [bind, Except.bind, pure, Except.pure, List.map_map]
  rw [show (fun k => (gps k - target).natAbs) ∘ tstampKeyD = fileDiff gps target from rfl]
  rw [zip_filter_map_fst]
  rfl

lemma select_few_magvec (gps : String → ℤ) (target : ℤ)
    (stokesFiles magvecFiles : List String)
    (h2 : 2 ≤ stokesFiles.length)
    (htok : ∀ f ∈ stokesFiles, 3 ≤ (pySplit '.' f).length)
    (hmv : magvecFiles.length ≤ 1) :
    get_HMI_data_select gps target stokesFiles magvecFiles = .noneReturn := by
  unfold get_HMI_data_select
  rw [if_pos (show stokesFiles.length > 1 by omega), closestFiles_ok gps target stokesFiles htok]
  have : ¬ (magvecFiles.length > 1) := by omega
  simp [this]

/-- Claim C1 (amended): for every candidate set with AT LEAST TWO files (each
carrying a timestamp token), the timestamp-resolution step of `get_HMI_data`
(download=False) returns exactly the candidates whose absolute gps difference
from the target equals the minimum difference over the full candidate set:
all ties are included, none broken, at least one candidate is returned, and
the reported minimum really is a lower bound.  (On a non-empty singleton
candidate set the step does not return this set: it fails — see the
counterexample — so the claim's `every non-empty candidate set` is too
strong.) -/
theorem c1_resolver_exact_ties (gps : String → ℤ) (target : ℤ)
    (files : List String)
    (h2 : 2 ≤ files.length)
    (htok : ∀ f ∈ files, 3 ≤ (pySplit '.' f).length) :
    resolve_tstamps gps target files =
      .ok (files.filter (fun f => fileDiff gps target f = minDiff gps target files)) ∧
    files.filter (fun f => fileDiff gps target f = minDiff gps target files) ≠ [] ∧
    ∀ f ∈ files, minDiff gps target files ≤ fileDiff gps target f := by
  refine ⟨?_, ?_, ?_⟩
  · unfold resolve_tstamps
    rw [if_pos (show files.length > 1 by omega)]
    exact closestFiles_ok gps target files htok
  · have hne : files.map (fileDiff gps target) ≠ [] := by
      cases files with
      | nil => simp at h2
      | cons a l => simp
    have hmem := natListMin_mem _ hne
    rcases List.mem_map.mp hmem with ⟨f, hf, hdf⟩
    intro hnil
    have : f ∈ files.filter (fun f => fileDiff gps target f = minDiff gps target files) :=
      List.mem_filter.mpr ⟨hf, by simp [minDiff, hdf]⟩
    rw [hnil] at this
    cases this
  · intro f hf
    exact natListMin_le _ _ (List.mem_map_of_mem _ hf)

/-- Claim C1 witness: two Stokes files with the same timestamp token and a
constant parse both attain the minimum difference 0, and both are returned. -/
theorem c1_resolver_exact_ties_witness :
    resolve_tstamps (fun _ => 0) 0
      ["hmi.s_720s.20140910_120000_tai.I0.fits",
       "hmi.s_720s.20140910_120000_tai.I1.fits"] =
      .ok (["hmi.s_720s.20140910_120000_tai.I0.fits",
        "hmi.s_720s.20140910_120000_tai.I1.fits"].filter
          (fun f => fileDiff (fun _ => 0) 0 f =
            minDiff (fun _ => 0) 0
              ["hmi.s_720s.20140910_120000_tai.I0.fits",
               "hmi.s_720s.20140910_120000_tai.I1.fits"])) ∧
    (["hmi.s_720s.20140910_120000_tai.I0.fits",
      "hmi.s_720s.20140910_120000_tai.I1.fits"].filter
        (fun f => fileDiff (fun _ => 0) 0 f =
          minDiff (fun _ => 0) 0
            ["hmi.s_720s.20140910_120000_tai.I0.fits",
             "hmi.s_720s.20140910_120000_tai.I1.fits"])) ≠ [] ∧
    ∀ f ∈ ["hmi.s_720s.20140910_120000_tai.I0.fits",
      "hmi.s_720s.20140910_120000_tai.I1.fits"],
      minDiff (fun _ => 0) 0
        ["hmi.s_720s.20140910_120000_tai.I0.fits",
         "hmi.s_720s.20140910_120000_tai.I1.fits"] ≤ fileDiff (fun _ => 0) 0 f :=
  c1_resolver_exact_ties (fun _ => 0) 0 _ (by decide) (by decide)

/-- Claim C1 counterexample: on a non-empty candidate set of size one the
resolution step does not return the (trivially minimum-distance) candidate:
the guarded block is skipped and line 143 reads the unbound `tstamps_diff`,
so the step fails with `UnboundLocalError`. -/
theorem c1_resolver_exact_ties_cex :
    resolve_tstamps (fun _ => 0) 0 ["hmi.s_720s.20140910_120000_tai.I0.fits"] =
      .error () ∧
    resolve_tstamps (fun _ => 0) 0 ["hmi.s_720s.20140910_120000_tai.I0.fits"] ≠
      .ok ["hmi.s_720s.20140910_120000_tai.I0.fits"] := by
  refine ⟨rfl, ?_⟩
  intro h
  rw [show resolve_tstamps (fun _ => 0) 0
    ["hmi.s_720s.20140910_120000_tai.I0.fits"] = Except.error () from rfl] at h
  exact Except.noConfusion h

/-- Claim C4 (amended): with download=False and zero matching local files the
acquisition produces no cube, but not through a `NoMatchError`-style error:
zero (or one) Stokes-series candidates make the pipeline crash with
`UnboundLocalError` at line 143, while zero (or one) inversion-series
candidates make `get_HMI_data` print a message and return `None` normally
(no exception, no partial cube). -/
theorem c4_zero_files_behavior :
    (∀ (gps : String → ℤ) (target : ℤ) (magvecFiles : List String),
      get_HMI_data_select gps target [] magvecFiles = .pyError) ∧
    (∀ (gps : String → ℤ) (target : ℤ) (stokesFiles : List String),
      2 ≤ stokesFiles.length →
      (∀ f ∈ stokesFiles, 3 ≤ (pySplit '.' f).length) →
      get_HMI_data_select gps target stokesFiles [] = .noneReturn) := by
  constructor
  · intro gps target magvecFiles
    rfl
  · intro gps target stokesFiles h2 htok
    exact select_few_magvec gps target stokesFiles [] h2 htok (by simp)

/-- Claim C4 witness: concrete instances of both zero-candidate behaviors. -/
theorem c4_zero_files_behavior_witness :
    get_HMI_data_select (fun _ => 0) 0 [] ["x"] = .pyError ∧
    get_HMI_data_select (fun _ => 0) 0
      ["hmi.s_720s.20140910_120000_tai.I0.fits",
       "hmi.s_720s.20140910_120000_tai.I1.fits"] [] = .noneReturn :=
  ⟨c4_zero_files_behavior.1 (fun _ => 0) 0 ["x"],
   c4_zero_files_behavior.2 (fun _ => 0) 0
     ["hmi.s_720s.20140910_120000_tai.I0.fits",
      "hmi.s_720s.20140910_120000_tai.I1.fits"] (by decide) (by decide)⟩

/-- Claim C4 counterexample: with two Stokes files present and zero
inversion-series files, `get_HMI_data` (download=False) returns `None`
normally (printing a message) instead of raising any error, contradicting
`raises a NoMatchError-style error`. -/
theorem c4_zero_files_behavior_cex :
    get_HMI_data_select (fun _ => 0) 0
      ["hmi.s_720s.20140910_120000_tai.I0.fits",
       "hmi.s_720s.20140910_120000_tai.I1.fits"] [] = .noneReturn ∧
    HMISelect.noneReturn ≠ HMISelect.pyError := by
  exact ⟨by decide, by decide⟩

/-- Claim C10: with download=False, when exactly one file matches the
inversion series (`len(all_fnames_magvec) > 1` is false), `get_HMI_data`
takes the no-files branch: it reports that no files were found and returns
`None` — no cubes, no coordinate systems — even though a valid candidate
exists. -/
theorem c10_singleton_magvec_returns_none (gps : String → ℤ) (target : ℤ)
    (stokesFiles : List String) (f : String)
    (h2 : 2 ≤ stokesFiles.length)
    (htok : ∀ g ∈ stokesFiles, 3 ≤ (pySplit '.' g).length) :
    get_HMI_data_select gps target stokesFiles [f] = .noneReturn :=
  select_few_magvec gps target stokesFiles [f] h2 htok (by simp)

/-- Claim C10 witness: a concrete run with two Stokes files and exactly one
inversion file returns the `None` outcome. -/
theorem c10_singleton_magvec_returns_none_witness :
    get_HMI_data_select (fun _ => 0) 0
      ["hmi.s_720s.20140910_120000_tai.I0.fits",
       "hmi.s_720s.20140910_120000_tai.I1.fits"]
      ["hmi.me_720s_fd10.20140910_120000_tai.field.fits"] = .noneReturn :=
  c10_singleton_magvec_returns_none (fun _ => 0) 0
    ["hmi.s_720s.20140910_120000_tai.I0.fits",
     "hmi.s_720s.20140910_120000_tai.I1.fits"]
    "hmi.me_720s_fd10.20140910_120000_tai.field.fits" (by decide) (by decide)

/-! ## Level-2 cube assembly

HMI source, `instload.py` lines 236-257: an outer loop over
`mag_params = ['field', 'inclination', 'azimuth']` and an inner scan over
`all_fnames_magvec`; a file matches when `fname.split('.')[-2] == mag_param`,
and matching files are decoded (`sunpy.map.Map(fname).data`, an external
collaborator modelled as `decode : String → α`) and appended in encounter
order.  Hinode source, lines 716-718: `level2_data[i] = SP_level2[mag_par].data`
for `i, mag_par in enumerate(magnetic_params)`, with the extension lookup
modelled as `ext : String → α`. -/

/-- Python `fname.split('.')[-2]`: `none` models the `IndexError` raised when
the split has fewer than two tokens. -/
def dataId? (f : String) : Option String :=
  if 2 ≤ (pySplit '.' f).length then
    some ((pySplit '.' f).getD ((pySplit '.' f).length - 2) "")
  else none

/-- The inner scan of the HMI level-2 assembly for one parameter name:
append `decode fname` for each file whose data id equals the parameter, in
file order; `fname.split('.')[-2]` is evaluated for every file, so a
malformed filename raises (`Except.error ()`). -/
def hmi_level2_inner {α : Type} (decode : String → α) (p : String) :
    List String → Except Unit (List α)
  | [] => .ok []
  | f :: fs =>
    match dataId? f with
    | none => .error ()
    | some d => do
      let rest ← hmi_level2_inner decode p fs
      pure (if d = p then decode f :: rest else rest)

/-- The HMI level-2 assembly: outer loop over the parameter specification,
inner scan over the candidate files. -/
def hmi_level2_assemble {α : Type} (decode : String → α) :
    List String → List String → Except Unit (List α)
  | [], _ => .ok []
  | p :: ps, files => do
    let head ← hmi_level2_inner decode p files
    let rest ← hmi_level2_assemble decode ps files
    pure (head ++ rest)

/-- The Hinode level-2 assembly: slice `i` of the cube is the data of the
FITS extension named by entry `i` of the parameter specification. -/
def hinode_level2_assemble {α : Type} (ext : String → α)
    (magneticParams : List String) : List α :=
  magneticParams.map ext

lemma hmi_inner_ok {α : Type} (decode : String → α) (p : String)
    (files : List String)
    (hgood : ∀ f ∈ files, 2 ≤ (pySplit '.' f).length) :
    hmi_level2_inner decode p files =
      .ok ((files.filter (fun g => dataId? g = some p)).map decode) := by
  induction files with
  | nil => rfl
  | cons f fs ih =>
    have hsome : dataId? f =
        some ((pySplit '.' f).getD ((pySplit '.' f).length - 2) "") := by
      unfold dataId?
      rw [if_pos (hgood f (by simp))]
    simp only [hmi_level2_inner, hsome, ih (fun g hg => hgood g (by simp [hg])),
      bind, Except.bind, pure, Except.pure, List.filter_cons]
    by_cases hdp : (pySplit '.' f).getD ((pySplit '.' f).length - 2) "" = p
    · rw [List.getD_eq_getElem?_getD] at hdp
      simp [hdp]
    · rw [List.getD_eq_getElem?_getD] at hdp
      simp [hdp]

lemma hmi_assemble_ok {α : Type} (decode : String → α)
    (params files : List String)
    (hgood : ∀ f ∈ files, 2 ≤ (pySplit '.' f).length) :
    hmi_level2_assemble decode params files =
      .ok (params.flatMap
        (fun p => (files.filter (fun g => dataId? g = some p)).map decode)) := by
  induction params with
  | nil => rfl
  | cons p ps ih =>
    simp only [hmi_level2_assemble, hmi_inner_ok decode p files hgood, ih,
      bind, Except.bind, pure, Except.pure, List.flatMap_cons]

lemma hmi_assemble_unique {α : Type} (decode imgOf : String → α)
    (matchOf : String → String) (params files : List String)
    (hgood : ∀ f ∈ files, 2 ≤ (pySplit '.' f).length)
    (hone : ∀ p ∈ params,
      files.filter (fun g => dataId? g = some p) = [matchOf p] ∧
      decode (matchOf p) = imgOf p) :
    hmi_level2_assemble decode params files = .ok (params.map imgOf) := by
  rw [hmi_assemble_ok decode params files hgood]
  congr 1
  induction params with
  | nil => rfl
  | cons p ps ih =>
    rcases hone p (by simp) with ⟨hf, hd⟩
    simp only [List.flatMap_cons, hf, List.map_cons, List.map_nil, hd,
      List.singleton_append, List.cons.injEq, true_and]
    exact ih (fun q hq => hone q (by simp [hq]))

/-- Claim C2: the assembled level-2 cube's leading-axis slice order exactly
equals the parameter-specification order, regardless of the order the files
appear in the input list (here: for `files2`, an arbitrary permutation of a
list in which each listed parameter matches exactly one file); this holds for
the HMI level-2 assembly (outer loop over parameter names, inner scan over
files) and for the Hinode level-2 assembly (slice `i` is the extension named
by parameter `i`). -/
theorem c2_leading_axis_order {α : Type} (decode imgOf : String → α)
    (matchOf : String → String) (ext : String → α) (da : α)
    (params files files2 : List String) (i : ℕ)
    (hgood : ∀ f ∈ files, 2 ≤ (pySplit '.' f).length)
    (hone : ∀ p ∈ params,
      files.filter (fun g => dataId? g = some p) = [matchOf p] ∧
      decode (matchOf p) = imgOf p)
    (hperm : files.Perm files2)
    (hi : i < params.length) :
    hmi_level2_assemble decode params files2 = .ok (params.map imgOf) ∧
    (hinode_level2_assemble ext params).getD i da = ext (params.getD i "") := by
  constructor
  · have hgood2 : ∀ f ∈ files2, 2 ≤ (pySplit '.' f).length := by
      intro f hf
      exact hgood f (hperm.mem_iff.mpr hf)
    have hone2 : ∀ p ∈ params,
        files2.filter (fun g => dataId? g = some p) = [matchOf p] ∧
        decode (matchOf p) = imgOf p := by
      intro p hp
      rcases hone p hp with ⟨hf, hd⟩
      refine ⟨?_, hd⟩
      have hpf := hperm.filter (fun g => decide (dataId? g = some p))
      rw [hf] at hpf
      exact (List.perm_singleton.mp hpf.symm)
    exact hmi_assemble_unique decode imgOf matchOf params files2 hgood2 hone2
  · unfold hinode_level2_assemble
    rw [List.getD_eq_getElem?_getD, List.getElem?_map,
      List.getElem?_eq_getElem hi, List.getD_eq_getElem?_getD,
      List.getElem?_eq_getElem hi]
    rfl

/-- Claim C2 witness: the three-parameter specification against a scrambled
on-disk file order still yields slices in specification order, and the
Hinode assembly returns the named extension at each index. -/
theorem c2_leading_axis_order_witness :
    hmi_level2_assemble (fun f => f) ["field", "inclination", "azimuth"]
      ["hmi.me_720s_fd10.t.azimuth.fits", "hmi.me_720s_fd10.t.field.fits",
       "hmi.me_720s_fd10.t.inclination.fits"] =
      .ok (["field", "inclination", "azimuth"].map
        (fun p => "hmi.me_720s_fd10.t." ++ p ++ ".fits")) ∧
    (hinode_level2_assemble (fun p => p ++ "!")
      ["field", "inclination", "azimuth"]).getD 2 "" =
      (fun p => p ++ "!") ((["field", "inclination", "azimuth"]).getD 2 "") :=
  c2_leading_axis_order (fun f => f)
    (fun p => "hmi.me_720s_fd10.t." ++ p ++ ".fits")
    (fun p => "hmi.me_720s_fd10.t." ++ p ++ ".fits")
    (fun p => p ++ "!") ""
    ["field", "inclination", "azimuth"]
    ["hmi.me_720s_fd10.t.field.fits", "hmi.me_720s_fd10.t.inclination.fits",
     "hmi.me_720s_fd10.t.azimuth.fits"]
    ["hmi.me_720s_fd10.t.azimuth.fits", "hmi.me_720s_fd10.t.field.fits",
     "hmi.me_720s_fd10.t.inclination.fits"]
    2 (by decide) (by decide) (by decide) (by decide)

lemma sum_counts_le (cnt : String → ℕ) :
    ∀ params : List String, (∀ p ∈ params, cnt p ≤ 1) →
      (params.map cnt).sum ≤ params.length
  | [], _ => le_refl _
  | q :: qs, h => by
    have hq := h q (by simp)
    have := sum_counts_le cnt qs (fun p hp => h p (by simp [hp]))
    simp only [List.map_cons, List.sum_cons, List.length_cons]
    omega

lemma sum_counts_lt (cnt : String → ℕ) :
    ∀ params : List String, (∀ p ∈ params, cnt p ≤ 1) →
      ∀ p0 ∈ params, cnt p0 = 0 →
      (params.map cnt).sum < params.length
  | [], _, _, hp0, _ => absurd hp0 (by simp)
  | q :: qs, h, p0, hp0, hz => by
    simp only [List.map_cons, List.sum_cons, List.length_cons]
    rcases List.mem_cons.mp hp0 with rfl | hmem
    · have := sum_counts_le cnt qs (fun p hp => h p (by simp [hp]))
      omega
    · have hq := h q (by simp)
      have := sum_counts_lt cnt qs (fun p hp => h p (by simp [hp])) p0 hmem hz
      omega

lemma length_flatMap_counts {α : Type} (g : String → List α) :
    ∀ l : List String, (l.flatMap g).length = (l.map (fun p => (g p).length)).sum
  | [] => rfl
  | p :: ps => by
    simp only [List.flatMap_cons, List.length_append, List.map_cons,
      List.sum_cons, length_flatMap_counts g ps]

/-- Claim C5 (amended): in the current level-2 assembly a parameter with zero
matching files contributes zero slices and no error is raised; the cube's
leading-axis size equals the total number of matching files over all
parameters, so it is strictly less than the specification length whenever
every parameter matches at most one file.  (Without that restriction the
strict inequality fails: a missing parameter can be offset by another
parameter matching several files — see the counterexample.) -/
theorem c5_missing_param_silent_shrink {α : Type} (decode : String → α)
    (params files : List String) (p0 : String)
    (hgood : ∀ f ∈ files, 2 ≤ (pySplit '.' f).length)
    (hp0 : p0 ∈ params)
    (hzero : files.filter (fun g => dataId? g = some p0) = [])
    (hatmost : ∀ p ∈ params,
      (files.filter (fun g => dataId? g = some p)).length ≤ 1) :
    hmi_level2_assemble decode params files =
      .ok (params.flatMap
        (fun p => (files.filter (fun g => dataId? g = some p)).map decode)) ∧
    (params.flatMap
      (fun p => (files.filter (fun g => dataId? g = some p)).map decode)).length <
      params.length := by
  refine ⟨hmi_assemble_ok decode params files hgood, ?_⟩
  rw [length_flatMap_counts]
  have hsame : (params.map
      (fun p => ((files.filter (fun g => dataId? g = some p)).map decode).length)) =
      params.map (fun p => (files.filter (fun g => dataId? g = some p)).length) := by
    simp [List.length_map]
  rw [hsame]
  exact sum_counts_lt _ params hatmost p0 hp0 (by simp [hzero])

/-- Claim C5 witness: one missing parameter and one file for each remaining
parameter — assembly succeeds with two slices for a three-entry
specification. -/
theorem c5_missing_param_silent_shrink_witness :
    hmi_level2_assemble (fun f => f) ["field", "inclination", "azimuth"]
      ["hmi.me_720s_fd10.t.inclination.fits",
       "hmi.me_720s_fd10.t.azimuth.fits"] =
      .ok (["field", "inclination", "azimuth"].flatMap
        (fun p => ((["hmi.me_720s_fd10.t.inclination.fits",
          "hmi.me_720s_fd10.t.azimuth.fits"].filter
            (fun g => dataId? g = some p)).map (fun f => f)))) ∧
    ((["field", "inclination", "azimuth"]).flatMap
      (fun p => ((["hmi.me_720s_fd10.t.inclination.fits",
        "hmi.me_720s_fd10.t.azimuth.fits"].filter
          (fun g => dataId? g = some p)).map (fun f => f)))).length <
      (["field", "inclination", "azimuth"] : List String).length :=
  c5_missing_param_silent_shrink (fun f => f)
    ["field", "inclination", "azimuth"]
    ["hmi.me_720s_fd10.t.inclination.fits", "hmi.me_720s_fd10.t.azimuth.fits"]
    "field" (by decide) (by decide) (by decide) (by decide)

/-- Claim C5 counterexample: with `field` matching zero files but
`inclination` and `azimuth` matching two timestamp-tied files each, the
assembly silently yields FOUR slices for a three-entry specification — the
leading-axis size is NOT strictly less than the specification length. -/
theorem c5_missing_param_silent_shrink_cex :
    (["hmi.me_720s_fd10.t1.inclination.fits",
      "hmi.me_720s_fd10.t2.inclination.fits",
      "hmi.me_720s_fd10.t1.azimuth.fits",
      "hmi.me_720s_fd10.t2.azimuth.fits"].filter
        (fun g => dataId? g = some "field")) = [] ∧
    hmi_level2_assemble (fun f => f) ["field", "inclination", "azimuth"]
      ["hmi.me_720s_fd10.t1.inclination.fits",
       "hmi.me_720s_fd10.t2.inclination.fits",
       "hmi.me_720s_fd10.t1.azimuth.fits",
       "hmi.me_720s_fd10.t2.azimuth.fits"] =
      .ok ["hmi.me_720s_fd10.t1.inclination.fits",
        "hmi.me_720s_fd10.t2.inclination.fits",
        "hmi.me_720s_fd10.t1.azimuth.fits",
        "hmi.me_720s_fd10.t2.azimuth.fits"] ∧
    ¬ ((["hmi.me_720s_fd10.t1.inclination.fits",
      "hmi.me_720s_fd10.t2.inclination.fits",
      "hmi.me_720s_fd10.t1.azimuth.fits",
      "hmi.me_720s_fd10.t2.azimuth.fits"] : List String).length <
        (["field", "inclination", "azimuth"] : List String).length) :=
  ⟨by decide, rfl, by decide⟩

/-! ## Level-1 stack reshape

Source, `instload.py` lines 195-203: the decoded per-file 2-D images are
stacked (`np.asarray(level1_data)`, shape `(N, Y, X)`) and reshaped with
`level1_data.reshape(4, 6, Y, X)`, where `Y`, `X` are taken from the stack's
own shape.  Each image is modelled as its row-major flat buffer
(`List α` of length `sz = Y*X`); numpy's C-order reshape reinterprets the
concatenated buffer, so entry `(s, w)` of the result is the `sz`-element
segment starting at offset `(6*s + w) * sz`, and numpy raises `ValueError`
unless the total element count equals `4*6*sz`. -/

/-- `level1_data.reshape(4, 6, Y, X)`: `none` models numpy's shape-mismatch
`ValueError`. -/
def np_reshape_4_6 {α : Type} (stack : List (List α)) (sz : ℕ) :
    Option (List (List (List α))) :=
  if stack.flatten.length = 4 * 6 * sz then
    some ((List.range 4).map fun s => (List.range 6).map fun w =>
      ((stack.flatten).drop ((6 * s + w) * sz)).take sz)
  else none

lemma flatten_length_const {α : Type} (sz : ℕ) :
    ∀ stack : List (List α), (∀ im ∈ stack, im.length = sz) →
      stack.flatten.length = stack.length * sz
  | [], _ => by simp
  | a :: rest, h => by
    have ha := h a (by simp)
    have := flatten_length_const sz rest (fun im him => h im (by simp [him]))
    simp only [List.flatten_cons, List.length_append, List.length_cons, this, ha]
    ring

lemma slice_at {α : Type} (sz : ℕ) :
    ∀ (stack : List (List α)) (k : ℕ), (∀ im ∈ stack, im.length = sz) →
      k < stack.length →
      ((stack.flatten).drop (k * sz)).take sz = stack.getD k []
  | [], k, _, hk => absurd hk (by simp)
  | a :: rest, 0, h, _ => by
    have ha := h a (by simp)
    simp only [List.flatten_cons, Nat.zero_mul, List.drop_zero, List.getD_cons_zero]
    rw [← ha, List.take_append_eq_append_take, List.take_length, Nat.sub_self,
      List.take_zero, List.append_nil]
  | a :: rest, k + 1, h, hk => by
    have ha := h a (by simp)
    have hrec := slice_at sz rest k (fun im him => h im (by simp [him]))
      (by simpa using hk)
    simp only [List.flatten_cons, List.getD_cons_succ]
    rw [show (k + 1) * sz = a.length + k * sz by rw [ha]; ring,
      List.drop_append_eq_append_drop, List.drop_eq_nil_of_le (by omega),
      List.nil_append, Nat.add_sub_cancel_left]
    exact hrec

lemma range_map_slices {α : Type} (sz : ℕ) (stack : List (List α))
    (h : ∀ im ∈ stack, im.length = sz) :
    ∀ n, n ≤ stack.length →
      (List.range n).map (fun k => ((stack.flatten).drop (k * sz)).take sz) =
        stack.take n := by
  intro n
  induction n with
  | zero => intro _; rfl
  | succ n ih =>
    intro hn
    rw [List.range_succ, List.map_append, ih (by omega), List.map_cons,
      List.map_nil, slice_at sz stack n h (by omega), List.take_succ]
    congr 1
    rw [List.getD_eq_getElem?_getD, List.getElem?_eq_getElem (by omega : n < stack.length)]
    rfl

lemma flatMap_grid {β : Type} (g : ℕ → β) (b : ℕ) :
    ∀ a : ℕ, ((List.range a).map
      (fun s => (List.range b).map (fun w => g (b * s + w)))).flatten =
      (List.range (a * b)).map g
  | 0 => by simp
  | a + 1 => by
    rw [List.range_succ, List.map_append, List.flatten_append,
      flatMap_grid g b a, show (a + 1) * b = a * b + b by ring, List.range_add,
      List.map_append, List.map_cons, List.map_nil, List.flatten_cons,
      List.flatten_nil, List.append_nil, List.map_map]
    simp [Function.comp, Nat.mul_comm a b]

/-- Claim C3: for a stack of exactly 24 equally-shaped images, the reshape
into `(4, 6, Y, X)` succeeds and preserves element identity — flattening the
reshaped cube back into 24 slices in order reproduces the original per-file
images unchanged. -/
theorem c3_reshape_preserves_identity {α : Type} (stack : List (List α))
    (sz : ℕ) (h24 : stack.length = 24)
    (hsz : ∀ im ∈ stack, im.length = sz) :
    np_reshape_4_6 stack sz =
      some ((List.range 4).map fun s => (List.range 6).map fun w =>
        ((stack.flatten).drop ((6 * s + w) * sz)).take sz) ∧
    ((List.range 4).map fun s => (List.range 6).map fun w =>
      ((stack.flatten).drop ((6 * s + w) * sz)).take sz).flatten = stack := by
  have hlen : stack.flatten.length = 4 * 6 * sz := by
    rw [flatten_length_const sz stack hsz, h24]
  constructor
  · unfold np_reshape_4_6
    rw [if_pos hlen]
  · rw [flatMap_grid (fun k => ((stack.flatten).drop (k * sz)).take sz) 6 4]
    have h4 : 4 * 6 = 24 := by norm_num
    rw [h4, ← h24, range_map_slices sz stack hsz stack.length (le_refl _),
      List.take_length]

/-- Claim C3 witness: 24 one-pixel images round-trip through the reshape. -/
theorem c3_reshape_preserves_identity_witness :
    np_reshape_4_6 ((List.range 24).map fun i => [i]) 1 =
      some ((List.range 4).map fun s => (List.range 6).map fun w =>
        ((((List.range 24).map fun i => [i]).flatten).drop ((6 * s + w) * 1)).take 1) ∧
    ((List.range 4).map fun s => (List.range 6).map fun w =>
      ((((List.range 24).map fun i => [i]).flatten).drop ((6 * s + w) * 1)).take 1).flatten =
      ((List.range 24).map fun i => [i]) :=
  c3_reshape_preserves_identity ((List.range 24).map fun i => [i]) 1
    (by decide) (by decide)

/-- Claim C6: when the stacked file list does not contain exactly 24 images
(so, for non-degenerate images, the total element count cannot fill the
`4×6×Y×X` shape), the reshape step fails with numpy's shape-mismatch error
(`none`); it never silently reshapes or truncates. -/
theorem c6_reshape_mismatch_fails {α : Type} (stack : List (List α)) (sz : ℕ)
    (hsz : ∀ im ∈ stack, im.length = sz)
    (hn : stack.length ≠ 24) (h0 : sz ≠ 0) :
    np_reshape_4_6 stack sz = none := by
  unfold np_reshape_4_6
  have hne : stack.flatten.length ≠ 4 * 6 * sz := by
    rw [flatten_length_const sz stack hsz]
    intro h
    have h2 : stack.length * sz = 24 * sz := by rw [h]
    exact hn (Nat.eq_of_mul_eq_mul_right (Nat.pos_of_ne_zero h0) h2)
  rw [if_neg hne]

/-- Claim C6 witness: a 23-image stack is rejected by the reshape. -/
theorem c6_reshape_mismatch_fails_witness :
    np_reshape_4_6 ((List.range 23).map fun i => [i]) 1 = none :=
  c6_reshape_mismatch_fails ((List.range 23).map fun i => [i]) 1
    (by decide) (by decide) (by decide)

/-! ## Axis-extended coordinate builder

Source, `instload.py` lines 207-233 (level 1) and 264-279 (level 2): the
2-axis celestial header of a representative decoded map
(`tmp_map.wcs.to_header()`) is copied and new axes are appended by setting
`CRPIXn`/`CDELTn`/`CUNITn`/`CTYPEn`/`CRVALn` for `n = 3` (and `4`), with
`WCSAXES` set to the new axis count.  A header is modelled as the ordered
list of its per-axis descriptions. -/

/-- One coordinate-axis description (reference pixel, pixel delta, unit,
type name, reference value). -/
structure WCSAxis where
  crpix : ℚ
  cdelt : ℚ
  cunit : String
  ctype : String
  crval : ℚ
deriving DecidableEq

/-- Wavelength axis of the level-1 product: `CRPIX3 = 3.5`,
`CDELT3 = 0.0688e-10 m`, `CUNIT3 = 'm'`, `CTYPE3 = 'WAVE'`,
`CRVAL3 = 6173.345e-10 m`. -/
def waveAxis : WCSAxis :=
  ⟨3.5, (0.0688 : ℚ) * (1 / 10 ^ 10), "m", "WAVE", (6173.345 : ℚ) * (1 / 10 ^ 10)⟩

/-- Stokes axis of the level-1 product: `CRPIX4 = 0`, `CDELT4 = 1`,
dimensionless, `CTYPE4 = 'STOKES'`, `CRVAL4 = 0`. -/
def stokesAxis : WCSAxis := ⟨0, 1, "", "STOKES", 0⟩

/-- Generic parameter axis of the level-2 product: `CRPIX3 = 0`,
`CDELT3 = 1`, dimensionless, `CTYPE3 = 'Parameter'`, `CRVAL3 = 0`. -/
def paramAxis : WCSAxis := ⟨0, 1, "", "Parameter", 0⟩

/-- Appending extra axes to a base header: the copied base axes stay first
and unchanged, the new axes follow in the order their keys are set. -/
def extendWCS (base extra : List WCSAxis) : List WCSAxis := base ++ extra

/-- The level-1 coordinate system: base spatial axes plus wavelength then
Stokes (`WCSAXES = 4`). -/
def level1_wcs_axes (base : List WCSAxis) : List WCSAxis :=
  extendWCS base [waveAxis, stokesAxis]

/-- The level-2 coordinate system: base spatial axes plus the parameter axis
(`WCSAXES = 3`). -/
def level2_wcs_axes (base : List WCSAxis) : List WCSAxis :=
  extendWCS base [paramAxis]

/-- Claim C7: for every 2-axis base spatial coordinate description and list
of extra axes, the extended system has `2 + len(extra_axes)` axes (4 for the
level-1 instance, 3 for the level-2 instance), the two original spatial axis
descriptions are value-equal to the source, and the new axes follow them in
the supplied order. -/
theorem c7_extend_axes (base extra : List WCSAxis) (hb : base.length = 2) :
    (extendWCS base extra).length = 2 + extra.length ∧
    (extendWCS base extra).take 2 = base ∧
    (extendWCS base extra).drop 2 = extra ∧
    (level1_wcs_axes base).length = 4 ∧
    (level2_wcs_axes base).length = 3 := by
  rcases base with _ | ⟨a1, rest1⟩
  · simp at hb
  rcases rest1 with _ | ⟨a2, rest2⟩
  · simp at hb
  rcases rest2 with _ | ⟨a3, rest3⟩
  · refine ⟨?_, rfl, rfl, rfl, rfl⟩
    simp [extendWCS]
    omega
  · simp at hb

/-- Claim C7 witness: a concrete 2-axis celestial base extended by the
level-1 wavelength and Stokes axes. -/
theorem c7_extend_axes_witness :
    (extendWCS [⟨1, 1, "arcsec", "HPLN-TAN", 0⟩, ⟨1, 1, "arcsec", "HPLT-TAN", 0⟩]
      [waveAxis, stokesAxis]).length =
      2 + ([waveAxis, stokesAxis] : List WCSAxis).length ∧
    (extendWCS [⟨1, 1, "arcsec", "HPLN-TAN", 0⟩, ⟨1, 1, "arcsec", "HPLT-TAN", 0⟩]
      [waveAxis, stokesAxis]).take 2 =
      [⟨1, 1, "arcsec", "HPLN-TAN", 0⟩, ⟨1, 1, "arcsec", "HPLT-TAN", 0⟩] ∧
    (extendWCS [⟨1, 1, "arcsec", "HPLN-TAN", 0⟩, ⟨1, 1, "arcsec", "HPLT-TAN", 0⟩]
      [waveAxis, stokesAxis]).drop 2 = [waveAxis, stokesAxis] ∧
    (level1_wcs_axes [⟨1, 1, "arcsec", "HPLN-TAN", 0⟩,
      ⟨1, 1, "arcsec", "HPLT-TAN", 0⟩]).length = 4 ∧
    (level2_wcs_axes [⟨1, 1, "arcsec", "HPLN-TAN", 0⟩,
      ⟨1, 1, "arcsec", "HPLT-TAN", 0⟩]).length = 3 :=
  c7_extend_axes
    [⟨1, 1, "arcsec", "HPLN-TAN", 0⟩, ⟨1, 1, "arcsec", "HPLT-TAN", 0⟩]
    [waveAxis, stokesAxis] rfl

/-! ## Hinode level-1 transpose

Source, `instload.py` lines 690-708: the level-1 files are read in scan
order into `level1_data` of shape `(Nx, Nstokes, Ny, Nwav)` —
`level1_data[ix] = SP_lvl1_obj[0].data` — and then
`level1_data.transpose(1, 3, 2, 0)` produces the canonical axis order
(Stokes, wavelength, y, x).  Arrays are modelled as nested lists with
numpy's convention that the shape is read off the first element along each
axis. -/

/-- Element access in a 4-D nested-list array, with a default for
out-of-bounds indices (never taken under the bound hypotheses). -/
def get4 {α : Type} (d : α) (a : List (List (List (List α))))
    (i0 i1 i2 i3 : ℕ) : α :=
  (((a.getD i0 []).getD i1 []).getD i2 []).getD i3 d

/-- `a.shape[1]` of a 4-D nested-list array. -/
def dim1 {α : Type} (a : List (List (List (List α)))) : ℕ :=
  (a.getD 0 []).length

/-- `a.shape[2]` of a 4-D nested-list array. -/
def dim2 {α : Type} (a : List (List (List (List α)))) : ℕ :=
  ((a.getD 0 []).getD 0 []).length

/-- `a.shape[3]` of a 4-D nested-list array. -/
def dim3 {α : Type} (a : List (List (List (List α)))) : ℕ :=
  (((a.getD 0 []).getD 0 []).getD 0 []).length

/-- `a.transpose(1, 3, 2, 0)`: output axis `k` indexes input axis
`(1, 3, 2, 0)[k]`, so the output has shape
`(shape[1], shape[3], shape[2], shape[0])` and element `(i, j, k, l)` of the
output is element `(l, i, k, j)` of the input. -/
def np_transpose_1_3_2_0 {α : Type} (d : α)
    (a : List (List (List (List α)))) : List (List (List (List α))) :=
  (List.range (dim1 a)).map fun i1 =>
    (List.range (dim3 a)).map fun i3 =>
      (List.range (dim2 a)).map fun i2 =>
        (List.range a.length).map fun i0 =>
          get4 d a i0 i1 i2 i3

/-- The Hinode level-1 cube: the per-file stack (axis order scan-index,
Stokes, y, wavelength) transposed to (Stokes, wavelength, y, x). -/
def sp_level1_cube {α : Type} (d : α)
    (fileData : List (List (List (List α)))) : List (List (List (List α))) :=
  np_transpose_1_3_2_0 d fileData

lemma getD_range_map {β : Type} (f : ℕ → β) (n i : ℕ) (d : β) (h : i < n) :
    ((List.range n).map f).getD i d = f i := by
  rw [List.getD_eq_getElem?_getD, List.getElem?_map, List.getElem?_range h]
  rfl

/-- Claim C9: the Hinode level-1 cube is the `(1, 3, 2, 0)` transpose of the
naturally-read stack: element `(s, w, y, x)` of the output equals element
`(x, s, y, w)` of the read stack (file `x`, Stokes `s`, row `y`,
wavelength `w`). -/
theorem c9_sp_transpose_order {α : Type} (d : α)
    (fileData : List (List (List (List α)))) (s w y x : ℕ)
    (hs : s < dim1 fileData) (hw : w < dim3 fileData)
    (hy : y < dim2 fileData) (hx : x < fileData.length) :
    get4 d (sp_level1_cube d fileData) s w y x = get4 d fileData x s y w := by
  show (((((List.range (dim1 fileData)).map _).getD s []).getD w []).getD y []).getD x d =
    get4 d fileData x s y w
  rw [getD_range_map _ _ _ _ hs, getD_range_map _ _ _ _ hw,
    getD_range_map _ _ _ _ hy, getD_range_map _ _ _ _ hx]

/-- Claim C9 witness: a one-file, one-Stokes, one-row, two-wavelength scan —
the cube's `(0, 1, 0, 0)` entry is the stack's `(0, 0, 0, 1)` entry. -/
theorem c9_sp_transpose_order_witness :
    get4 0 (sp_level1_cube 0 [[[[10, 20]]]]) 0 1 0 0 =
      get4 (0 : ℕ) [[[[10, 20]]]] 0 0 0 1 :=
  c9_sp_transpose_order 0 [[[[10, 20]]]] 0 1 0 0
    (by decide) (by decide) (by decide) (by decide)

end StokesPy
